import Mathlib

/-!
Shallow embedding of the ingredient vetting pipeline of the
FirstPledgePlatform repository, together with theorems checking its
natural-language specification against the code.

Conventions used throughout:
- TypeScript strings are modelled by Lean `String` / `List Char`; the
  ECMAScript `toLowerCase` / `toUpperCase` builtins are modelled by their
  ASCII fragment (ingredient names are ASCII), `trim` by dropping
  whitespace characters at both ends.
- JavaScript numbers occurring in the pipeline (confidence values,
  timestamps in milliseconds) are modelled by `ℚ`; no float rounding is
  exercised by any property proved here (the code only selects, compares
  and passes these values through).
- JavaScript truthiness on strings (`x || d`: the empty string is falsy)
  is modelled by `jsOrStr`; on numbers (`0` and `NaN` are falsy) by
  `jsOrNum` with `0` standing for the falsy numbers.
- External I/O (HTTP fetches, the LLM API, the regex layer over fetched
  HTML pages) is modelled by passing each call's outcome as an explicit
  input, so every function is total and executable; a thrown exception is
  an `Except.error`.
-/

/-- JavaScript `a || b` for an optional string `a` (`undefined`/`null` and
`""` are falsy). -/
def jsOrStr (a : Option String) (b : String) : String :=
  match a with
  | some s => if s = "" then b else s
  | none => b

/-- JavaScript `a || b` for an optional number `a` (`undefined`/`null`, `0`
and `NaN` are falsy; `NaN` is subsumed into the `0` case here, which is
sound for every property proved below since both select `b`). -/
def jsOrNum (a : Option ℚ) (b : ℚ) : ℚ :=
  match a with
  | some x => if x = 0 then b else x
  | none => b

/-- ASCII fragment of the ECMAScript `String.prototype.toLowerCase` builtin,
per character. -/
def jsCharToLower (c : Char) : Char :=
  if 65 ≤ c.toNat ∧ c.toNat ≤ 90 then Char.ofNat (c.toNat + 32) else c

/-- ASCII fragment of the ECMAScript `String.prototype.toUpperCase` builtin,
per character. -/
def jsCharToUpper (c : Char) : Char :=
  if 97 ≤ c.toNat ∧ c.toNat ≤ 122 then Char.ofNat (c.toNat - 32) else c

/-- ECMAScript white space for `trim` (the common code points). -/
def jsIsWhitespace (c : Char) : Bool :=
  c = ' ' ∨ c = '\t' ∨ c = '\n' ∨ c = '\r' ∨ c.toNat = 11 ∨ c.toNat = 12

/-- Embeds `s.toLowerCase()` on the ASCII fragment. -/
def jsToLowerCase (s : String) : String := ⟨s.data.map jsCharToLower⟩

/-- Embeds `s.toUpperCase()` on the ASCII fragment. -/
def jsToUpperCase (s : String) : String := ⟨s.data.map jsCharToUpper⟩

/-- Embeds `s.trim()`: drop whitespace at both ends. -/
def jsTrim (s : String) : String :=
  ⟨(s.data.dropWhile jsIsWhitespace).reverse.dropWhile jsIsWhitespace
    |>.reverse⟩

/-- The three-tier safety classification (`shared/types.ts` `SafetyStatus`). -/
inductive SafetyStatus where
  | safe
  | caution
  | banned
deriving DecidableEq, Repr

/-- The literal string value of a `SafetyStatus` (TypeScript stores these as
the strings "safe" / "caution" / "banned"). -/
def SafetyStatus.toStr : SafetyStatus → String
  | .safe => "safe"
  | .caution => "caution"
  | .banned => "banned"

/-- Severity order on statuses: `banned` > `caution` > `safe`. -/
def SafetyStatus.severity : SafetyStatus → Nat
  | .safe => 0
  | .caution => 1
  | .banned => 2

namespace EWGService

/-- Embeds `EWGIngredientData` interface from `ewgService.ts`. `score` is the 1-10
scale score (`none` models `null`), `found` the lookup-success flag. -/
structure EWGIngredientData where
  name : String
  score : Option ℕ
  dataAvailability : Option String
  url : String
  concerns : List String
  found : Bool
  suggestedMatches : Option (List String)
deriving DecidableEq, Repr

/-- Regex `\w` character class (ASCII word characters). -/
def isWordChar (c : Char) : Bool := c.isAlphanum ∨ c = '_'

/-- Collapses runs of `-` to a single `-` (the hyphen-run replace step);
the boolean records whether the previous kept character was a dash. -/
def collapseDashAux : Bool → List Char → List Char
  | _, [] => []
  | prevDash, c :: rest =>
    if c = '-' then
      if prevDash then collapseDashAux true rest
      else '-' :: collapseDashAux true rest
    else c :: collapseDashAux false rest

/-- Embeds `EWGService.slugify`: lowercase, trim, strip non-word chars (keeping
whitespace and hyphens), whitespace runs to hyphens, collapse hyphen runs,
strip outer hyphens. The two source steps `\s+ → "-"` then `-+ → "-"` are
realised as a per-character map followed by the dash collapse, which has
the same composite effect. -/
def slugify (name : String) : String :=
  let step1 := (jsTrim (jsToLowerCase name)).data
  let step2 := step1.filter fun c => isWordChar c ∨ jsIsWhitespace c ∨ c = '-'
  let step3 := step2.map fun c => if jsIsWhitespace c then '-' else c
  let step4 := collapseDashAux false step3
  ⟨((step4.dropWhile (· = '-')).reverse.dropWhile (· = '-')).reverse⟩

/-- Embeds `EWGService.getStatusFromScore`: maps a 1-10 score to a status tier,
`null` outside the range. -/
def getStatusFromScore : Option ℕ → Option SafetyStatus
  | none => none
  | some score =>
    if 1 ≤ score ∧ score ≤ 4 then some .safe
    else if 5 ≤ score ∧ score ≤ 7 then some .caution
    else if 8 ≤ score ∧ score ≤ 10 then some .banned
    else none

/-- Outcome of the regex layer `parseEWGPage` runs over a fetched HTML page:
`scoreMatch` is `parseInt` of the digits captured by the score regexes
(`/hazard[\s-]*score[:\s]*(\d+)/i` etc.), `dataAvailability` and `concerns`
the captures of the other two regexes. The regex engine itself is external
to the embedding; its outcome is an input. -/
structure FetchedPage where
  scoreMatch : Option ℕ
  dataAvailability : Option String
  concerns : List String
deriving DecidableEq, Repr

/-- Embeds `EWGService.parseEWGPage`: validates the raw matched score into the 1-10
range for the `score` field, but computes `found` from the raw
(pre-validation) match, exactly as the source does. -/
def parseEWGPage (page : FetchedPage) (ingredientName url : String) :
    EWGIngredientData :=
  let score := page.scoreMatch
  { name := ingredientName
    score := match score with
      | some s => if 1 ≤ s ∧ s ≤ 10 then some s else none
      | none => none
    dataAvailability := page.dataAvailability
    url := url
    concerns := page.concerns
    found := score.isSome
    suggestedMatches := none }

/-- The EWG search URL for an ingredient name (query-string encoding left
abstract; only equality of records matters to the claims). -/
def searchUrl (ingredientName : String) : String :=
  "https://www.ewg.org/skindeep/search/?query=" ++ ingredientName

/-- Embeds `EWGService.fetchDirectIngredientPage`: `fetched = none` models a
non-2xx response or a network error (the catch-all in the source); the
not-found record is returned in that case. -/
def fetchDirectIngredientPage (ingredientName url : String)
    (fetched : Option FetchedPage) : EWGIngredientData :=
  match fetched with
  | some page => parseEWGPage page ingredientName url
  | none =>
    { name := ingredientName, score := none, dataAvailability := none
      url := url, concerns := [], found := false, suggestedMatches := none }

/-- Outcome of the regex layer `parseSearchResults` runs over the search
page: the captured ingredient links plus the raw score match. -/
structure SearchPage where
  links : List String
  scoreMatch : Option ℕ
deriving DecidableEq, Repr

/-- Embeds `EWGService.parseSearchResults`: takes the first ingredient link if any;
`score` is the range-validated match, `found` again the raw match. -/
def parseSearchResults (page : SearchPage) (ingredientName : String) :
    EWGIngredientData :=
  match page.links with
  | firstMatch :: _ =>
    let fullUrl :=
      if firstMatch.startsWith "http" then firstMatch
      else "https://www.ewg.org" ++ firstMatch
    let score := page.scoreMatch
    { name := ingredientName
      score := match score with
        | some s => if 1 ≤ s ∧ s ≤ 10 then some s else none
        | none => none
      dataAvailability := none
      url := fullUrl
      concerns := []
      found := score.isSome
      suggestedMatches := none }
  | [] =>
    { name := ingredientName, score := none, dataAvailability := none
      url := searchUrl ingredientName, concerns := [], found := false
      suggestedMatches := none }

/-- Embeds `EWGService.searchEWGDatabase`: `fetched = none` models a failed or
non-2xx search fetch. -/
def searchEWGDatabase (ingredientName : String)
    (fetched : Option SearchPage) : EWGIngredientData :=
  match fetched with
  | some page =>
    let result := parseSearchResults page ingredientName
    if result.found then result
    else
      { name := ingredientName, score := none, dataAvailability := none
        url := searchUrl ingredientName, concerns := [], found := false
        suggestedMatches := none }
  | none =>
    { name := ingredientName, score := none, dataAvailability := none
      url := searchUrl ingredientName, concerns := [], found := false
      suggestedMatches := none }

/-- Embeds `EWGService.findSimilarIngredients` (the source builds variation strings
but always returns the empty array). -/
def findSimilarIngredients (_ingredientName : String) : List String := []

/-- Embeds `EWGService.searchIngredient`: direct page, then search page, then the
not-found record with best-effort suggestions. The source's outer
`try`/`catch` cannot fire in the model (every inner failure is already a
value), matching the claim that the method never throws. -/
def searchIngredient (ingredientName : String)
    (directFetch : Option FetchedPage) (searchFetch : Option SearchPage) :
    EWGIngredientData :=
  let directResult :=
    fetchDirectIngredientPage ingredientName
      ("https://www.ewg.org/skindeep/ingredients/" ++ slugify ingredientName
        ++ "/")
      directFetch
  if directResult.found then directResult
  else
    let searchResult := searchEWGDatabase ingredientName searchFetch
    if searchResult.found then searchResult
    else
      let suggestions := findSimilarIngredients ingredientName
      { name := ingredientName, score := none, dataAvailability := none
        url := searchUrl ingredientName, concerns := [], found := false
        suggestedMatches :=
          if suggestions.length > 0 then some suggestions else none }

end EWGService

namespace ResearchService

/-- Embeds `ResearchResult` interface from `researchService.ts`. -/
structure ResearchResult where
  source : String
  url : String
  title : String
  snippet : String
  relevance : ℚ
deriving DecidableEq, Repr

/-- An error thrown by `searchGoogle`: the HTTP status plus whether
`error.message` contains the substring "quota". -/
structure SearchError where
  status : ℕ
  msgHasQuota : Bool
deriving DecidableEq, Repr

/-- Embeds `maxConsecutiveErrors` field (the circuit-breaker threshold). -/
def maxConsecutiveErrors : ℕ := 3

/-- Embeds `ResearchService.handleSearchError`: updates the consecutive-error
counter for one caught error. Quota errors (429 or a "quota" message)
always increment; a server error (status ≥ 500) increments only when the
counter is currently 0 (that first server error is also the only one
logged); every other error leaves the counter unchanged. -/
def handleSearchError (consecutiveErrors : ℕ) (e : SearchError) : ℕ :=
  let isServerError := 500 ≤ e.status
  let isQuotaError := e.status = 429 ∨ e.msgHasQuota
  if isQuotaError then consecutiveErrors + 1
  else if isServerError ∧ consecutiveErrors = 0 then consecutiveErrors + 1
  else consecutiveErrors

/-- Outcome of one per-source search (`searchHealthline` / `searchPubMed` /
`searchFDA`): the call returned a result, returned `null` (no items), or
threw. -/
inductive SourceOutcome where
  | ok (result : Option ResearchResult)
  | err (e : SearchError)
deriving DecidableEq, Repr

/-- One `try { ... } catch { handleSearchError(...) }` block of
`searchIngredient`: a non-null result is appended and resets the counter
to 0; a null result changes nothing; an error goes through
`handleSearchError`. -/
def runSource (st : ℕ × List ResearchResult) (o : SourceOutcome) :
    ℕ × List ResearchResult :=
  match o with
  | .ok (some r) => (0, st.2 ++ [r])
  | .ok none => st
  | .err e => (handleSearchError st.1 e, st.2)

/-- Embeds `ResearchService.searchIngredient`, as a function of the current
consecutive-error counter and the outcomes of the three per-source
searches. Returns the (relevance-sorted) results, the new counter, and the
number of network requests issued. Unconfigured service or a tripped
breaker short-circuits to an empty result with zero requests. -/
def searchIngredient (configured : Bool) (consecutiveErrors : ℕ)
    (outcomes : SourceOutcome × SourceOutcome × SourceOutcome) :
    List ResearchResult × ℕ × ℕ :=
  if ¬configured then ([], consecutiveErrors, 0)
  else if maxConsecutiveErrors ≤ consecutiveErrors then
    ([], consecutiveErrors, 0)
  else
    let st1 := runSource (consecutiveErrors, []) outcomes.1
    let st2 := runSource st1 outcomes.2.1
    let st3 := runSource st2 outcomes.2.2
    (st3.2.mergeSort (fun a b => b.relevance ≤ a.relevance), st3.1, 3)

/-- Embeds `ResearchService.calculateRelevance` over the ASCII fragment: 0.9 on a
literal substring match of the ingredient name, else 0.8 scaled by the
fraction of words (longer than 3 characters) of the name occurring in the
text, capped at 0.8. -/
def calculateRelevance (text ingredientName : String) : ℚ :=
  let lowerText := jsToLowerCase text
  let lowerIngredient := jsToLowerCase ingredientName
  if (lowerText.splitOn lowerIngredient).length > 1 then 9/10
  else
    let ingredientWords := lowerIngredient.splitOn " "
    let matchedWords := (ingredientWords.filter fun word =>
      word.length > 3 ∧ (lowerText.splitOn word).length > 1).length
    let matchRatio := (matchedWords : ℚ) / ingredientWords.length
    min (8/10) (matchRatio * (8/10))

end ResearchService

/-- The JSON object obtained from a classifier response after `JSON.parse`
succeeds: the fields the providers read, each possibly absent. The JSON
layer itself is external to the embedding. -/
structure ParsedJson where
  status : Option String
  rationale : Option String
  description : Option String
  edgeCases : Option String
  confidence : Option ℚ
deriving DecidableEq, Repr

/-- The object every provider's `analyzeIngredient` resolves with. In the
TypeScript the `status` field is declared as the three-value union, but the
parse functions build it from untyped JSON, so it is a plain string here. -/
structure ProviderResult where
  status : String
  rationale : String
  description : String
  edgeCases : String
  confidence : ℚ
deriving DecidableEq, Repr

/-- The `defaultDescription` template shared by the three providers. -/
def defaultDescription (name : String) : String :=
  name ++ " is a cosmetic ingredient.\nSafety assessment indicates caution "
    ++ "status.\nFurther research may be needed."

/-- Outcome of one raw LLM API call: a response whose text parsed to the
given JSON object (`ok none` models text with no parsable JSON object or a
missing `content`), a 429 rate-limit error, or any other thrown error. -/
inductive ApiOutcome where
  | ok (parsed : Option ParsedJson)
  | rateLimit
  | otherError
deriving DecidableEq, Repr

namespace GeminiProvider

/-- Embeds `maxRetries` field of `GeminiProvider`. -/
def maxRetries : ℕ := 3

/-- Embeds `GeminiProvider.parseResponse`: extract the first braced block, parse it,
then backfill each falsy field with its template; a missing JSON object (or
a parse throw) propagates as an error. Note the `status` field is only
defaulted when falsy, never validated against the enum. -/
def parseResponse (text : Option ParsedJson) (ingredientName : String) :
    Except String ProviderResult :=
  match text with
  | none => .error "No JSON found"
  | some parsed =>
    .ok { status := jsOrStr parsed.status "caution"
          rationale := jsOrStr parsed.rationale
            (ingredientName ++ " requires review.")
          description := jsOrStr parsed.description
            (defaultDescription ingredientName)
          edgeCases := jsOrStr parsed.edgeCases
            "No specific edge cases known."
          confidence := jsOrNum parsed.confidence (7/10) }

/-- The retry loop of `GeminiProvider.analyzeIngredient`, from a given
attempt number, run against the finite stream of API outcomes. Returns how
many API calls were made together with the result. A 429 with
`attempt < maxRetries` sleeps and retries; any other error (including a
parse failure) is thrown immediately. -/
def analyzeFrom (ingredientName : String) (attempt : ℕ) :
    List ApiOutcome → ℕ × Except String ProviderResult
  | [] => (0, .error "no api outcome supplied")
  | r :: rest =>
    match r with
    | .ok parsed => (1, parseResponse parsed ingredientName)
    | .otherError => (1, .error "api error")
    | .rateLimit =>
      if attempt < maxRetries then
        let (n, res) := analyzeFrom ingredientName (attempt + 1) rest
        (n + 1, res)
      else (1, .error "rate limited")

/-- Embeds `GeminiProvider.analyzeIngredient`, which starts at attempt 1. -/
def analyzeIngredient (ingredientName : String) (responses : List ApiOutcome) :
    ℕ × Except String ProviderResult :=
  analyzeFrom ingredientName 1 responses

end GeminiProvider

namespace OpenAIProvider

/-- Embeds `OpenAIProvider.parseResponse`: `JSON.parse` the whole text and backfill
falsy fields; a parse throw propagates (`ok none` models unparseable text
and the `!content` throw together — both are thrown errors with no
status). As in the Gemini provider, a truthy `status` is not validated. -/
def parseResponse (text : Option ParsedJson) (ingredientName : String) :
    Except String ProviderResult :=
  match text with
  | none => .error "Failed to parse OpenAI response"
  | some parsed =>
    .ok { status := jsOrStr parsed.status "caution"
          rationale := jsOrStr parsed.rationale
            (ingredientName ++ " requires review.")
          description := jsOrStr parsed.description
            (defaultDescription ingredientName)
          edgeCases := jsOrStr parsed.edgeCases
            "No specific edge cases known."
          confidence := jsOrNum parsed.confidence (7/10) }

/-- Embeds `OpenAIProvider.analyzeIngredient`: one API call; on a 429 it sleeps
60s and recursively calls itself again — there is no attempt counter, so
the recursion is bounded only by the stream of outcomes the environment
supplies. Returns the number of API calls made and the result. -/
def analyzeIngredient (ingredientName : String) :
    List ApiOutcome → ℕ × Except String ProviderResult
  | [] => (0, .error "no api outcome supplied")
  | r :: rest =>
    match r with
    | .ok parsed => (1, parseResponse parsed ingredientName)
    | .otherError => (1, .error "api error")
    | .rateLimit =>
      let (n, res) := analyzeIngredient ingredientName rest
      (n + 1, res)

end OpenAIProvider

namespace GroqProvider

/-- Outcome of one Groq API call; `decommissioned` is a 400 with a
`model_decommissioned` code. -/
inductive GroqOutcome where
  | ok (parsed : Option ParsedJson)
  | rateLimit
  | decommissioned
  | otherError
deriving DecidableEq, Repr

/-- Embeds `modelsToTry` as computed in `GroqProvider.analyzeIngredient` with the
default construction (`this.model` first, then the remaining fallbacks). -/
def modelsToTry : List String :=
  ["llama-3.3-70b-versatile", "llama-3.1-8b-instant", "mixtral-8x7b-32768"]

/-- Embeds `GroqProvider.parseResponse` (same shape as the OpenAI one). -/
def parseResponse (text : Option ParsedJson) (ingredientName : String) :
    Except String ProviderResult :=
  match text with
  | none => .error "Failed to parse Groq response"
  | some parsed =>
    .ok { status := jsOrStr parsed.status "caution"
          rationale := jsOrStr parsed.rationale
            (ingredientName ++ " requires review.")
          description := jsOrStr parsed.description
            (defaultDescription ingredientName)
          edgeCases := jsOrStr parsed.edgeCases
            "No specific edge cases known."
          confidence := jsOrNum parsed.confidence (7/10) }

/-- The model-fallback loop of `GroqProvider.analyzeIngredient`. Each loop
iteration consumes one API outcome. A decommissioned (or other non-429)
error on a non-last model moves to the next model; a 429 restarts the whole
call (`return this.analyzeIngredient(...)`) with the full model list; on
the last model any non-429 error is thrown. -/
def go (ingredientName : String) : List String → List GroqOutcome →
    ℕ × Except String ProviderResult
  | [], _ => (0, .error "All Groq models failed")
  | _ :: _, [] => (0, .error "no api outcome supplied")
  | _ :: ms, r :: rest =>
    match r with
    | .ok parsed => (1, parseResponse parsed ingredientName)
    | .rateLimit =>
      let (n, res) := go ingredientName modelsToTry rest
      (n + 1, res)
    | .decommissioned =>
      if ms.isEmpty then (1, .error "api error")
      else
        let (n, res) := go ingredientName ms rest
        (n + 1, res)
    | .otherError =>
      if ms.isEmpty then (1, .error "api error")
      else
        let (n, res) := go ingredientName ms rest
        (n + 1, res)
termination_by models responses => (responses.length, models.length)

/-- Embeds `GroqProvider.analyzeIngredient`, which starts with the full model list. -/
def analyzeIngredient (ingredientName : String) (responses : List GroqOutcome) :
    ℕ × Except String ProviderResult :=
  go ingredientName modelsToTry responses

end GroqProvider

/-- Embeds `IngredientAnalysis` interface from `aiVettingService.ts`, the
pipeline's output/cache record. `status` is declared as the three-value
union in TypeScript but is built from untyped classifier JSON, so it is a
plain string here. `lastAnalyzedAt` / `updatedAt` (milliseconds since the
epoch) are the extra metadata `mapRowToAnalysis` attaches through its cast
for refresh checking. -/
structure IngredientAnalysis where
  name : String
  status : String
  rationale : String
  description : String
  edgeCases : String
  sourceUrl : String
  confidence : ℚ
  ewgScore : Option ℕ
  researchSources : Option (List ResearchService.ResearchResult)
  suggestedMatches : Option (List String)
  lastAnalyzedAt : Option ℚ
  updatedAt : Option ℚ
deriving DecidableEq, Repr

namespace IngredientAnalysisService

/-- Embeds `IngredientAnalysisService.normalizeIngredientName`:
`name.toLowerCase().trim()`. -/
def normalizeIngredientName (name : String) : String :=
  jsTrim (jsToLowerCase name)

/-- A row of the `ingredient_analyses` table (the `StoredAnalysis`
interface); timestamps in milliseconds since the epoch. -/
structure StoredRow where
  ingredient_name : String
  status : String
  rationale : String
  description : String
  edge_cases : String
  source_url : String
  ewg_score : Option ℕ
  ewg_data_availability : Option String
  research_sources : Option (List ResearchService.ResearchResult)
  suggested_matches : Option (List String)
  confidence : ℚ
  analysis_version : ℕ
  created_at : ℚ
  updated_at : ℚ
  last_analyzed_at : ℚ
deriving DecidableEq, Repr

/-- The backing store: one row per ingredient name (the table has a unique
key on `ingredient_name`). -/
abbrev DB := List StoredRow

/-- Row lookup by exact key (the `.eq("ingredient_name", ...).single()`
query). -/
def getRow (db : DB) (key : String) : Option StoredRow :=
  db.find? fun r => r.ingredient_name == key

/-- Embeds `IngredientAnalysisService.mapRowToAnalysis`. -/
def mapRowToAnalysis (row : StoredRow) : IngredientAnalysis :=
  { name := row.ingredient_name
    status := row.status
    rationale := row.rationale
    description := row.description
    edgeCases := row.edge_cases
    sourceUrl := row.source_url
    confidence := row.confidence
    ewgScore := row.ewg_score
    researchSources := row.research_sources
    suggestedMatches := row.suggested_matches
    lastAnalyzedAt := some row.last_analyzed_at
    updatedAt := some row.updated_at }

/-- Embeds `IngredientAnalysisService.getAnalysis`: lookup under the normalized
name. -/
def getAnalysis (db : DB) (ingredientName : String) :
    Option IngredientAnalysis :=
  (getRow db (normalizeIngredientName ingredientName)).map mapRowToAnalysis

/-- Embeds `IngredientAnalysisService.shouldRefreshAnalysis`: a missing record
always refreshes; otherwise the record is stale when its age in days
exceeds the refresh window. If both timestamps are absent the JavaScript
comparison is against `NaN` and yields `false` (no refresh). -/
def shouldRefreshAnalysis (refreshDays : ℕ) (now : ℚ) :
    Option IngredientAnalysis → Bool
  | none => true
  | some analysis =>
    match analysis.lastAnalyzedAt.orElse (fun _ => analysis.updatedAt) with
    | none => false
    | some lastAnalyzed =>
      decide ((now - lastAnalyzed) / (1000 * 60 * 60 * 24) > (refreshDays : ℚ))

/-- Embeds `IngredientAnalysisService.saveAnalysis`: inserts a fresh row with
`analysis_version` 1 and `last_analyzed_at` now; `created_at` and
`updated_at` are set to now by the table defaults. -/
def saveAnalysis (db : DB) (ingredientName : String)
    (analysis : IngredientAnalysis) (now : ℚ) : DB :=
  db ++ [{ ingredient_name := normalizeIngredientName ingredientName
           status := analysis.status
           rationale := analysis.rationale
           description := analysis.description
           edge_cases := analysis.edgeCases
           source_url := analysis.sourceUrl
           ewg_score := analysis.ewgScore
           ewg_data_availability := none
           research_sources := analysis.researchSources
           suggested_matches := analysis.suggestedMatches
           confidence := analysis.confidence
           analysis_version := 1
           created_at := now
           updated_at := now
           last_analyzed_at := now }]

/-- Embeds `IngredientAnalysisService.updateAnalysis`: reads the existing version,
then updates the analysis fields of the matching row, setting
`analysis_version` to the incremented value and `last_analyzed_at` to now
(`updated_at` by trigger); `created_at` is not in the update payload and
is preserved. -/
def updateAnalysis (db : DB) (ingredientName : String)
    (analysis : IngredientAnalysis) (now : ℚ) : DB :=
  let key := normalizeIngredientName ingredientName
  let newVersion := match getRow db key with
    | some existing => existing.analysis_version + 1
    | none => 1
  db.map fun r =>
    if r.ingredient_name == key then
      { r with
        status := analysis.status
        rationale := analysis.rationale
        description := analysis.description
        edge_cases := analysis.edgeCases
        source_url := analysis.sourceUrl
        ewg_score := analysis.ewgScore
        ewg_data_availability := none
        research_sources := analysis.researchSources
        suggested_matches := analysis.suggestedMatches
        confidence := analysis.confidence
        analysis_version := newVersion
        updated_at := now
        last_analyzed_at := now }
    else r

/-- Embeds `IngredientAnalysisService.upsertAnalysis`: update when a row exists
for the normalized name, insert otherwise. -/
def upsertAnalysis (db : DB) (ingredientName : String)
    (analysis : IngredientAnalysis) (now : ℚ) : DB :=
  if (getAnalysis db ingredientName).isSome then
    updateAnalysis db ingredientName analysis now
  else
    saveAnalysis db ingredientName analysis now

end IngredientAnalysisService

namespace AIVettingService

open EWGService ResearchService

/-- How many calls `analyzeIngredient` issued to each external
collaborator, plus whether the cache upsert was attempted. -/
structure Effects where
  ewgCalls : ℕ
  researchCalls : ℕ
  aiCalls : ℕ
  cacheWrites : ℕ
deriving DecidableEq, Repr

/-- Embeds `AIVettingService.buildRationaleFromEWG`. -/
def buildRationaleFromEWG (ewgData : EWGIngredientData) (_status : String) :
    String :=
  if ewgData.found ∧ ewgData.score.isSome then
    "EWG Skin Deep score: " ++ toString (ewgData.score.getD 0) ++ "/10. "
      ++ (match ewgData.dataAvailability with
          | some d => "Data availability: " ++ d ++ "."
          | none => "")
      ++ " "
      ++ (if ewgData.concerns.length > 0 then
            "Concerns: " ++ String.intercalate ", " ewgData.concerns ++ "."
          else "")
  else
    ewgData.name ++ " requires manual review. EWG Skin Deep data was "
      ++ "unavailable. Please research this ingredient using EWG Skin Deep "
      ++ "and other reliable sources before publishing."

/-- Embeds `AIVettingService.buildDefaultDescription`. -/
def buildDefaultDescription (ingredientName status : String) : String :=
  ingredientName ++ " is a cosmetic ingredient used in various "
    ++ "formulations.\nSafety assessment indicates " ++ status
    ++ " status based on available data.\nFurther research may be needed "
    ++ "to fully understand its safety profile."

/-- Embeds `AIVettingService.buildDefaultEdgeCases`. -/
def buildDefaultEdgeCases (_ingredientName status : String) : String :=
  if status = "banned" then
    "This ingredient should be avoided due to safety concerns."
  else if status = "caution" then
    "Use with caution. May cause irritation in sensitive individuals."
  else "No specific edge cases known. Use as directed."

/-- Embeds `AIVettingService.analyzeIngredient`, with each collaborator's outcome
as an input:
- `svc`: the analysis-storage service when configured — its table state
  and refresh window in days;
- `ewgData`: what `ewgService.searchIngredient` resolves with;
- `research`: `some rs` when the research service is configured and its
  `searchIngredient` would resolve with `rs`, `none` when unconfigured;
- `ai`: `none` when no provider is configured; `some (.error _)` when the
  provider call throws (caught, leaving an empty partial analysis);
  `some (.ok r)` when it resolves with `r`.
Returns the analysis, the effect counts, and the upserted table state. -/
def analyzeIngredient (svc : Option (IngredientAnalysisService.DB × ℕ))
    (now : ℚ) (ingredientName : String) (ewgData : EWGIngredientData)
    (research : Option (List ResearchResult))
    (ai : Option (Except String ProviderResult)) :
    IngredientAnalysis × Effects × Option IngredientAnalysisService.DB :=
  -- Step 0: permanent storage
  let cacheHit : Option IngredientAnalysis :=
    match svc with
    | some (db, refreshDays) =>
      match IngredientAnalysisService.getAnalysis db ingredientName with
      | some stored =>
        if ¬(IngredientAnalysisService.shouldRefreshAnalysis refreshDays now
              (some stored)) then
          some stored
        else none
      | none => none
    | none => none
  match cacheHit with
  | some stored => (stored, ⟨0, 0, 0, 0⟩, svc.map Prod.fst)
  | none =>
    -- Step 1: EWG status
    let status : Option SafetyStatus :=
      match ewgData.score with
      | some _ => getStatusFromScore ewgData.score
      | none => none
    -- Step 2: research gate
    let ewgDataUnavailable := ¬ewgData.found ∨ ewgData.score = none
    let (researchSources, researchCalls) :=
      match research with
      | some rs => if ewgDataUnavailable then (rs, 1) else (([] : List ResearchResult), 0)
      | none => ([], 0)
    -- Step 3: classifier (failures caught, leaving no opinion)
    let (aiAnalysis, aiCalls) : Option ProviderResult × ℕ :=
      match ai with
      | none => (none, 0)
      | some (.error _) => (none, 1)
      | some (.ok r) => (some r, 1)
    -- Step 4: merge
    let finalStatus :=
      jsOrStr (status.map SafetyStatus.toStr)
        (jsOrStr (aiAnalysis.map (·.status)) "caution")
    let result : IngredientAnalysis :=
      { name := ingredientName
        status := finalStatus
        rationale := jsOrStr (aiAnalysis.map (·.rationale))
          (buildRationaleFromEWG ewgData finalStatus)
        description := jsOrStr (aiAnalysis.map (·.description))
          (buildDefaultDescription ingredientName finalStatus)
        edgeCases := jsOrStr (aiAnalysis.map (·.edgeCases))
          (buildDefaultEdgeCases ingredientName finalStatus)
        sourceUrl := ewgData.url
        confidence :=
          if ewgData.found then 9/10
          else jsOrNum (aiAnalysis.map (·.confidence)) (1/2)
        ewgScore := ewgData.score
        researchSources :=
          if researchSources.length > 0 then some researchSources else none
        suggestedMatches := ewgData.suggestedMatches
        lastAnalyzedAt := none
        updatedAt := none }
    -- Step 5: persist (failures logged and swallowed)
    match svc with
    | some (db, _) =>
      (result, ⟨1, researchCalls, aiCalls, 1⟩,
        some (IngredientAnalysisService.upsertAnalysis db ingredientName
          result now))
    | none => (result, ⟨1, researchCalls, aiCalls, 0⟩, none)

end AIVettingService

/-- Embeds `deriveOverallStatus` from `server/index.ts`: severity precedence over
the per-ingredient statuses. -/
def deriveOverallStatus (statuses : List SafetyStatus) : SafetyStatus :=
  if statuses.contains .banned then .banned
  else if statuses.contains .caution then .caution
  else .safe

/-! ## Helper lemmas -/

theorem char_toNat_ofNat (m : Nat) (h : m < 55296) :
    (Char.ofNat m).toNat = m := by
  have hv : Nat.isValidChar m := Or.inl h
  simp [Char.ofNat, Char.toNat, Char.ofNatAux, dif_pos hv]
  simp [UInt32.toNat, BitVec.toNat_ofNatLt]

theorem jsCharToLower_jsCharToUpper (c : Char) :
    jsCharToLower (jsCharToUpper c) = jsCharToLower c := by
  unfold jsCharToUpper jsCharToLower
  by_cases h : 97 ≤ c.toNat ∧ c.toNat ≤ 122
  · rw [if_pos h]
    have h1 : (Char.ofNat (c.toNat - 32)).toNat = c.toNat - 32 :=
      char_toNat_ofNat _ (by omega)
    rw [h1, if_pos (by omega), if_neg (by omega)]
    have h2 : c.toNat - 32 + 32 = c.toNat := by omega
    rw [h2, Char.ofNat_toNat]
  · rw [if_neg h]

theorem jsToLowerCase_jsToUpperCase (s : String) :
    jsToLowerCase (jsToUpperCase s) = jsToLowerCase s := by
  simp only [jsToLowerCase, jsToUpperCase, List.map_map]
  congr 1
  exact List.map_congr_left fun c _ => jsCharToLower_jsCharToUpper c

theorem normalize_jsToUpperCase (n : String) :
    IngredientAnalysisService.normalizeIngredientName (jsToUpperCase n)
      = IngredientAnalysisService.normalizeIngredientName n := by
  simp only [IngredientAnalysisService.normalizeIngredientName,
    jsToLowerCase_jsToUpperCase]

/-! ## Claim theorems -/

/-- C9: For every ingredient name `n`, `normalize(n) = normalize(n.upper())`
— normalization (lowercase + trim) is case-insensitive — and because the
same `normalizeIngredientName` is the key on cache read (`getAnalysis`) and
cache write (`upsertAnalysis`), two differently-cased submissions of the
same ingredient resolve to the same cache entry: the read and the write
performed for `n.upper()` coincide with those for `n`. -/
theorem normalizeIngredientName_case_insensitive
    (n : String) (db : IngredientAnalysisService.DB)
    (a : IngredientAnalysis) (now : ℚ) :
    IngredientAnalysisService.normalizeIngredientName (jsToUpperCase n)
        = IngredientAnalysisService.normalizeIngredientName n
      ∧ IngredientAnalysisService.getAnalysis db (jsToUpperCase n)
        = IngredientAnalysisService.getAnalysis db n
      ∧ IngredientAnalysisService.upsertAnalysis db (jsToUpperCase n) a now
        = IngredientAnalysisService.upsertAnalysis db n a now := by
  have hkey := normalize_jsToUpperCase n
  refine ⟨hkey, ?_, ?_⟩
  · simp only [IngredientAnalysisService.getAnalysis, hkey]
  · simp only [IngredientAnalysisService.upsertAnalysis,
      IngredientAnalysisService.getAnalysis,
      IngredientAnalysisService.updateAnalysis,
      IngredientAnalysisService.saveAnalysis,
      IngredientAnalysisService.getRow, hkey]

theorem foldSeverity_le (l : List SafetyStatus) (k : ℕ)
    (h : ∀ s ∈ l, s.severity ≤ k) :
    l.foldr (fun s m => max s.severity m) 0 ≤ k := by
  induction l with
  | nil => exact Nat.zero_le k
  | cons s rest ih =>
    simp only [List.foldr_cons, max_le_iff]
    exact ⟨h s (List.mem_cons_self s rest),
      ih fun t ht => h t (List.mem_cons_of_mem s ht)⟩

theorem le_foldSeverity (l : List SafetyStatus) (s : SafetyStatus)
    (h : s ∈ l) :
    s.severity ≤ l.foldr (fun s m => max s.severity m) 0 := by
  induction l with
  | nil => cases h
  | cons t rest ih =>
    simp only [List.foldr_cons, le_max_iff]
    rcases List.mem_cons.mp h with rfl | hmem
    · exact Or.inl le_rfl
    · exact Or.inr (ih hmem)

theorem severity_le_two (s : SafetyStatus) : s.severity ≤ 2 := by
  cases s <;> simp [SafetyStatus.severity]

theorem contains_eq_mem (l : List SafetyStatus) (s : SafetyStatus) :
    l.contains s = decide (s ∈ l) := by
  induction l with
  | nil => rfl
  | cons t rest ih =>
    by_cases h : t = s <;> simp_all [List.contains_cons]

/-- C6: For every list of per-ingredient statuses, `deriveOverallStatus`
computes the maximum severity under `banned` > `caution` > `safe`
("banned" if any element is banned, else "caution" if any is caution,
else "safe"), and the result is invariant under any permutation of the
list. -/
theorem deriveOverallStatus_max_severity
    (l l' : List SafetyStatus) (hperm : l.Perm l') :
    (deriveOverallStatus l).severity
        = l.foldr (fun s m => max s.severity m) 0
      ∧ deriveOverallStatus l = deriveOverallStatus l' := by
  constructor
  · by_cases hb : SafetyStatus.banned ∈ l
    · rw [deriveOverallStatus, if_pos (by simp [contains_eq_mem, hb])]
      exact le_antisymm (le_foldSeverity l _ hb)
        (foldSeverity_le l 2 fun s _ => severity_le_two s)
    · by_cases hc : SafetyStatus.caution ∈ l
      · rw [deriveOverallStatus, if_neg (by simp [contains_eq_mem, hb]),
          if_pos (by simp [contains_eq_mem, hc])]
        refine le_antisymm (le_foldSeverity l _ hc) (foldSeverity_le l 1 ?_)
        intro s hs
        cases s with
        | safe => exact Nat.zero_le 1
        | caution => exact le_rfl
        | banned => exact absurd hs hb
      · rw [deriveOverallStatus, if_neg (by simp [contains_eq_mem, hb]),
          if_neg (by simp [contains_eq_mem, hc])]
        refine le_antisymm (Nat.zero_le _) (foldSeverity_le l 0 ?_)
        intro s hs
        cases s with
        | safe => exact le_rfl
        | caution => exact absurd hs hc
        | banned => exact absurd hs hb
  · simp only [deriveOverallStatus, contains_eq_mem, hperm.mem_iff]

/-- Witness for C6 at a concrete permutation pair. -/
theorem deriveOverallStatus_max_severity_witness :
    (deriveOverallStatus [.safe, .caution]).severity
        = [SafetyStatus.safe, SafetyStatus.caution].foldr
            (fun s m => max s.severity m) 0
      ∧ deriveOverallStatus [.safe, .caution]
        = deriveOverallStatus [.caution, .safe] :=
  deriveOverallStatus_max_severity [.safe, .caution] [.caution, .safe]
    (List.Perm.swap SafetyStatus.caution SafetyStatus.safe [])

/-- C1: In the orchestrator's merge, an ingredient whose score lookup
returned `found: true` with a score `s` in [1,10] gets exactly the tier
mapping of `s` ("safe" on [1,4], "caution" on [5,7], "banned" on [8,10])
as its final status, regardless of the classifier's outcome; with no score
present, the final status is the classifier's status when the classifier
produced one, else "caution" (both when no provider is configured and when
the provider call threw). Stated on the non-cache-hit path
(`analysisService` absent), which is the path the merge belongs to. -/
theorem aiVetting_finalStatus_merge
    (now : ℚ) (name : String) (ewgData : EWGService.EWGIngredientData)
    (research : Option (List ResearchService.ResearchResult))
    (ai : Option (Except String ProviderResult)) :
    (∀ s : ℕ, ewgData.found = true → ewgData.score = some s → 1 ≤ s →
      s ≤ 10 →
      (AIVettingService.analyzeIngredient none now name ewgData research
        ai).1.status
        = (if s ≤ 4 then "safe" else if s ≤ 7 then "caution" else "banned"))
    ∧ (ewgData.score = none →
        (∀ r : ProviderResult, ai = some (.ok r) → r.status ≠ "" →
          (AIVettingService.analyzeIngredient none now name ewgData research
            ai).1.status = r.status)
        ∧ (ai = none →
            (AIVettingService.analyzeIngredient none now name ewgData
              research ai).1.status = "caution")
        ∧ (∀ msg : String, ai = some (.error msg) →
            (AIVettingService.analyzeIngredient none now name ewgData
              research ai).1.status = "caution")) := by
  constructor
  · intro s _ hscore h1 h10
    simp only [AIVettingService.analyzeIngredient, hscore,
      EWGService.getStatusFromScore]
    interval_cases s <;> simp [jsOrStr, SafetyStatus.toStr]
  · intro hscore
    refine ⟨?_, ?_, ?_⟩
    · intro r heq hr
      subst heq
      simp only [AIVettingService.analyzeIngredient, hscore]
      simp [jsOrStr, hr]
    · intro heq
      subst heq
      simp only [AIVettingService.analyzeIngredient, hscore]
      simp [jsOrStr]
    · intro msg heq
      subst heq
      simp only [AIVettingService.analyzeIngredient, hscore]
      simp [jsOrStr]

/-- Witness for C1: a found score of 9 yields "banned" even though the
classifier proposed "safe"; with no score the classifier's "safe" wins. -/
theorem aiVetting_finalStatus_merge_witness :
    (AIVettingService.analyzeIngredient none 0 "formaldehyde"
        ⟨"formaldehyde", some 9, none, "u", [], true, none⟩ none
        (some (.ok ⟨"safe", "r", "d", "e", 8/10⟩))).1.status
      = (if 9 ≤ 4 then "safe" else if 9 ≤ 7 then "caution" else "banned")
    ∧ (AIVettingService.analyzeIngredient none 0 "water"
        ⟨"water", none, none, "u", [], false, none⟩ none
        (some (.ok ⟨"safe", "r", "d", "e", 8/10⟩))).1.status = "safe" := by
  constructor
  · exact (aiVetting_finalStatus_merge 0 "formaldehyde"
      ⟨"formaldehyde", some 9, none, "u", [], true, none⟩ none
      (some (.ok ⟨"safe", "r", "d", "e", 8/10⟩))).1 9 rfl rfl
      (by decide) (by decide)
  · exact (((aiVetting_finalStatus_merge 0 "water"
      ⟨"water", none, none, "u", [], false, none⟩ none
      (some (.ok ⟨"safe", "r", "d", "e", 8/10⟩))).2 rfl).1
      ⟨"safe", "r", "d", "e", 8/10⟩ rfl (by decide))

/-- C5: On the non-cache-hit path the merged confidence is 0.9 when the
score lookup reported `found: true`; otherwise it is the classifier's
returned confidence (providers never return confidence 0 — their parse
defaults a falsy confidence to 0.7, as the last three conjuncts show);
otherwise (no provider, or the provider call threw) it is 0.5. The merged
confidence is never 0, so `confidence == 0` occurs only for total-failure
fallbacks outside this function (vacuously here: `analyzeIngredient` emits
none). -/
theorem aiVetting_confidence_merge
    (now : ℚ) (name : String) (ewgData : EWGService.EWGIngredientData)
    (research : Option (List ResearchService.ResearchResult))
    (ai : Option (Except String ProviderResult)) :
    (ewgData.found = true →
      (AIVettingService.analyzeIngredient none now name ewgData research
        ai).1.confidence = 9/10)
    ∧ (ewgData.found = false → ∀ r : ProviderResult, ai = some (.ok r) →
        r.confidence ≠ 0 →
        (AIVettingService.analyzeIngredient none now name ewgData research
          ai).1.confidence = r.confidence)
    ∧ (ewgData.found = false →
        (ai = none ∨ ∃ msg : String, ai = some (.error msg)) →
        (AIVettingService.analyzeIngredient none now name ewgData research
          ai).1.confidence = 1/2)
    ∧ (AIVettingService.analyzeIngredient none now name ewgData research
        ai).1.confidence ≠ 0
    ∧ (∀ (text : Option ParsedJson) (r : ProviderResult),
        GeminiProvider.parseResponse text name = .ok r → r.confidence ≠ 0)
    ∧ (∀ (text : Option ParsedJson) (r : ProviderResult),
        OpenAIProvider.parseResponse text name = .ok r → r.confidence ≠ 0)
    ∧ (∀ (text : Option ParsedJson) (r : ProviderResult),
        GroqProvider.parseResponse text name = .ok r → r.confidence ≠ 0) := by
  refine ⟨?_, ?_, ?_, ?_, ?_, ?_, ?_⟩
  · intro hf
    simp only [AIVettingService.analyzeIngredient, hf]
    simp
  · intro hf r heq hc
    subst heq
    simp only [AIVettingService.analyzeIngredient, hf]
    simp [jsOrNum, hc]
  · intro hf hcases
    rcases hcases with heq | ⟨msg, heq⟩ <;> subst heq <;>
      simp only [AIVettingService.analyzeIngredient, hf] <;> simp [jsOrNum]
  · by_cases hf : ewgData.found
    · simp only [AIVettingService.analyzeIngredient, hf]
      simp
    · rcases ai with _ | ai'
      · simp only [AIVettingService.analyzeIngredient]
        simp [hf, jsOrNum]
      · rcases ai' with msg | r
        · simp only [AIVettingService.analyzeIngredient]
          simp [hf, jsOrNum]
        · by_cases hc : r.confidence = 0
          · simp only [AIVettingService.analyzeIngredient]
            simp [hf, jsOrNum, hc]
          · simp only [AIVettingService.analyzeIngredient]
            simp [hf, jsOrNum, hc]
  · intro text r heq
    cases text with
    | none => exact absurd heq (by simp [GeminiProvider.parseResponse])
    | some parsed =>
      simp only [GeminiProvider.parseResponse, Except.ok.injEq] at heq
      subst heq
      simp only [jsOrNum]
      cases parsed.confidence with
      | none => norm_num
      | some x =>
        by_cases hx : x = 0
        · simp [hx]
        · simp [hx]
  · intro text r heq
    cases text with
    | none => exact absurd heq (by simp [OpenAIProvider.parseResponse])
    | some parsed =>
      simp only [OpenAIProvider.parseResponse, Except.ok.injEq] at heq
      subst heq
      simp only [jsOrNum]
      cases parsed.confidence with
      | none => norm_num
      | some x =>
        by_cases hx : x = 0
        · simp [hx]
        · simp [hx]
  · intro text r heq
    cases text with
    | none => exact absurd heq (by simp [GroqProvider.parseResponse])
    | some parsed =>
      simp only [GroqProvider.parseResponse, Except.ok.injEq] at heq
      subst heq
      simp only [jsOrNum]
      cases parsed.confidence with
      | none => norm_num
      | some x =>
        by_cases hx : x = 0
        · simp [hx]
        · simp [hx]

/-- Witness for C5: a found lookup pins confidence to 0.9; with no lookup
result the classifier's 0.8 is kept; with nothing at all it is 0.5. -/
theorem aiVetting_confidence_merge_witness :
    (AIVettingService.analyzeIngredient none 0 "titanium dioxide"
        ⟨"titanium dioxide", some 3, none, "u", [], true, none⟩ none
        (some (.ok ⟨"safe", "r", "d", "e", 8/10⟩))).1.confidence = 9/10
    ∧ (AIVettingService.analyzeIngredient none 0 "water"
        ⟨"water", none, none, "u", [], false, none⟩ none
        (some (.ok ⟨"safe", "r", "d", "e", 8/10⟩))).1.confidence = 8/10
    ∧ (AIVettingService.analyzeIngredient none 0 "water"
        ⟨"water", none, none, "u", [], false, none⟩ none
        none).1.confidence = 1/2 := by
  refine ⟨?_, ?_, ?_⟩
  · exact (aiVetting_confidence_merge 0 "titanium dioxide"
      ⟨"titanium dioxide", some 3, none, "u", [], true, none⟩ none
      (some (.ok ⟨"safe", "r", "d", "e", 8/10⟩))).1 rfl
  · exact (aiVetting_confidence_merge 0 "water"
      ⟨"water", none, none, "u", [], false, none⟩ none
      (some (.ok ⟨"safe", "r", "d", "e", 8/10⟩))).2.1 rfl
      ⟨"safe", "r", "d", "e", 8/10⟩ rfl (by norm_num)
  · exact (aiVetting_confidence_merge 0 "water"
      ⟨"water", none, none, "u", [], false, none⟩ none none).2.2.1 rfl
      (Or.inl rfl)

/-- C2 (code-bug evidence): the providers' `parseResponse` backfills a
falsy `status` but never validates a truthy one against the enum, although
its declared TypeScript return type promises the three-value union (and the
orchestrator's own `parseAIResponse` template does validate it). A parsed
classifier response carrying the out-of-enum status "dangerous" is passed
through verbatim, and on the merge path with no score-lookup result the
batch record's final status is "dangerous" — not one of the three enum
values. An unparseable response meanwhile makes the provider throw instead
of defaulting to "caution" (the orchestrator catches that throw). -/
theorem provider_status_enum_not_validated :
    GeminiProvider.parseResponse
        (some ⟨some "dangerous", some "a detailed rationale", some "d",
          some "e", some (8/10)⟩) "phenol"
      = .ok ⟨"dangerous", "a detailed rationale", "d", "e", 8/10⟩
    ∧ (AIVettingService.analyzeIngredient none 0 "phenol"
        ⟨"phenol", none, none, "u", [], false, none⟩ none
        (some (.ok ⟨"dangerous", "a detailed rationale", "d", "e",
          8/10⟩))).1.status = "dangerous"
    ∧ "dangerous" ∉ ["safe", "caution", "banned"]
    ∧ OpenAIProvider.parseResponse none "phenol"
      = .error "Failed to parse OpenAI response" := by
  refine ⟨?_, rfl, by decide, rfl⟩
  simp [GeminiProvider.parseResponse, jsOrStr, jsOrNum]

/-- C3 counterexample: the OpenAI backend, fed three consecutive 429
responses and then a success, makes a fourth API attempt and returns that
success — it neither stops at 3 attempts in total nor propagates the
rate-limit failure. -/
theorem openai_retry_unbounded_counterexample :
    (OpenAIProvider.analyzeIngredient "x"
      (List.replicate 3 .rateLimit
        ++ [.ok (some ⟨some "safe", some "r", some "d", some "e",
              some (8/10)⟩)])).1 = 4 := by
  rfl

/-- C10 counterexample: a direct EWG page whose score regex captures 15
(outside 1-10) produces a record with `found = true` and `score = null`,
so `found == (score != null)` fails and the orchestrator's
`!found || score === null` test is strictly stronger than `!found`. -/
theorem ewg_found_with_null_score_counterexample :
    (EWGService.searchIngredient "formaldehyde" (some ⟨some 15, none, []⟩)
      none).found = true
    ∧ (EWGService.searchIngredient "formaldehyde" (some ⟨some 15, none, []⟩)
      none).score = none := by
  exact ⟨rfl, rfl⟩

theorem gemini_analyzeFrom_attempts_le (name : String) :
    ∀ (responses : List ApiOutcome) (attempt : ℕ),
      (GeminiProvider.analyzeFrom name attempt responses).1
        ≤ max (GeminiProvider.maxRetries + 1 - attempt) 1 := by
  intro responses
  induction responses with
  | nil => intro attempt; simp [GeminiProvider.analyzeFrom]
  | cons r rest ih =>
    intro attempt
    cases r with
    | ok parsed => simp [GeminiProvider.analyzeFrom]
    | otherError => simp [GeminiProvider.analyzeFrom]
    | rateLimit =>
      simp only [GeminiProvider.analyzeFrom]
      by_cases h : attempt < GeminiProvider.maxRetries
      · rw [if_pos h]
        have := ih (attempt + 1)
        simp only [GeminiProvider.maxRetries] at *
        omega
      · rw [if_neg h]
        simp

theorem openai_attempts_eq (name : String) (p : Option ParsedJson) :
    ∀ n : ℕ,
      (OpenAIProvider.analyzeIngredient name
        (List.replicate n .rateLimit ++ [.ok p])).1 = n + 1 := by
  intro n
  induction n with
  | zero => rfl
  | succ k ih =>
    simp only [List.replicate_succ, List.cons_append,
      OpenAIProvider.analyzeIngredient, List.append_eq, ih]

theorem groq_attempts_eq (name : String) (p : Option ParsedJson) :
    ∀ n : ℕ,
      (GroqProvider.analyzeIngredient name
        (List.replicate n .rateLimit ++ [.ok p])).1 = n + 1 := by
  intro n
  induction n with
  | zero =>
    simp [GroqProvider.analyzeIngredient, GroqProvider.go,
      GroqProvider.modelsToTry]
  | succ k ih =>
    simp only [GroqProvider.analyzeIngredient] at ih ⊢
    rw [List.replicate_succ, List.cons_append]
    rw [show GroqProvider.modelsToTry
      = "llama-3.3-70b-versatile"
        :: ["llama-3.1-8b-instant", "mixtral-8x7b-32768"] from rfl]
    rw [GroqProvider.go]
    simp only [List.append_eq] at ih ⊢
    omega

/-- C3 (amended): only the Gemini backend bounds its rate-limit retrying —
it makes at most `maxRetries = 3` API attempts however the environment
responds, and on 3 or more consecutive 429s it stops at exactly 3 attempts
and propagates the rate-limit failure. The OpenAI and Groq backends
instead retry indefinitely on 429 (with fixed 60s / 1s delays): against
`n` consecutive 429s followed by a success they make `n + 1` attempts for
every `n`, so their retrying has no fixed bound and rate-limit exhaustion
is never propagated. -/
theorem classifier_rateLimit_retry_bound_gemini_only
    (name : String) (responses : List ApiOutcome) (p : Option ParsedJson)
    (n : ℕ) :
    (GeminiProvider.analyzeIngredient name responses).1
        ≤ GeminiProvider.maxRetries
      ∧ (3 ≤ n →
          GeminiProvider.analyzeIngredient name
            (List.replicate n .rateLimit) = (3, .error "rate limited"))
      ∧ (OpenAIProvider.analyzeIngredient name
          (List.replicate n .rateLimit ++ [.ok p])).1 = n + 1
      ∧ (GroqProvider.analyzeIngredient name
          (List.replicate n .rateLimit ++ [.ok p])).1 = n + 1 := by
  refine ⟨?_, ?_, openai_attempts_eq name p n, groq_attempts_eq name p n⟩
  · have := gemini_analyzeFrom_attempts_le name responses 1
    simpa [GeminiProvider.analyzeIngredient, GeminiProvider.maxRetries]
      using this
  · intro h
    obtain ⟨k, rfl⟩ := Nat.exists_eq_add_of_le h
    simp [GeminiProvider.analyzeIngredient, GeminiProvider.analyzeFrom,
      GeminiProvider.maxRetries, List.replicate_succ,
      show (3 : ℕ) + k = k + 3 from by omega]

/-- Witness for C3 (amended) at four consecutive 429s: Gemini stops at 3
attempts and fails; OpenAI and Groq keep going to a 5th attempt. -/
theorem classifier_rateLimit_retry_bound_witness :
    (GeminiProvider.analyzeIngredient "x"
        (List.replicate 4 .rateLimit)).1 ≤ GeminiProvider.maxRetries
      ∧ GeminiProvider.analyzeIngredient "x" (List.replicate 4 .rateLimit)
        = (3, .error "rate limited")
      ∧ (OpenAIProvider.analyzeIngredient "x"
          (List.replicate 4 .rateLimit ++ [.ok none])).1 = 5
      ∧ (GroqProvider.analyzeIngredient "x"
          (List.replicate 4 .rateLimit ++ [.ok none])).1 = 5 := by
  have h := classifier_rateLimit_retry_bound_gemini_only "x"
    (List.replicate 4 .rateLimit) none 4
  exact ⟨h.1, h.2.1 (by decide), h.2.2.1, h.2.2.2⟩

/-- C4 counterexample: with the consecutive-error counter at 1, a 500
server error leaves the counter at 1 — it is not incremented to 2 as the
claim's "incremented by every server-side (5xx) error" requires. -/
theorem research_5xx_not_always_incrementing :
    ResearchService.handleSearchError 1 ⟨500, false⟩ = 1
      ∧ ResearchService.handleSearchError 1 ⟨500, false⟩ ≠ 2 := by
  exact ⟨rfl, by decide⟩

/-- C4 (amended): the consecutive-error counter is incremented by every
quota/rate-limit error (status 429 or a "quota" message); a 5xx error
increments it only when the counter is currently 0 (exactly the one 5xx
that is logged) and leaves it unchanged otherwise; non-quota non-5xx
errors leave it unchanged; a source search that returns a result resets it
to 0; and once the counter has reached the threshold 3, `searchIngredient`
returns an empty result with zero network requests and the counter
unchanged. -/
theorem research_circuit_breaker
    (c : ℕ) (e : ResearchService.SearchError)
    (r : ResearchService.ResearchResult)
    (st : ℕ × List ResearchService.ResearchResult)
    (outcomes : ResearchService.SourceOutcome × ResearchService.SourceOutcome
      × ResearchService.SourceOutcome) :
    ((e.status = 429 ∨ e.msgHasQuota = true) →
      ResearchService.handleSearchError c e = c + 1)
    ∧ (500 ≤ e.status → e.status ≠ 429 → e.msgHasQuota = false →
        ResearchService.handleSearchError c e = if c = 0 then 1 else c)
    ∧ (e.status < 500 → e.status ≠ 429 → e.msgHasQuota = false →
        ResearchService.handleSearchError c e = c)
    ∧ (ResearchService.runSource st (.ok (some r))).1 = 0
    ∧ (3 ≤ c →
        ResearchService.searchIngredient true c outcomes = ([], c, 0)) := by
  refine ⟨?_, ?_, ?_, rfl, ?_⟩
  · intro h
    simp [ResearchService.handleSearchError, h]
  · intro h5 h429 hq
    simp [ResearchService.handleSearchError, h429, hq, h5]
    by_cases hc : c = 0 <;> simp [hc]
  · intro h5 h429 hq
    simp [ResearchService.handleSearchError, h429, hq]
    omega
  · intro hc
    simp [ResearchService.searchIngredient,
      ResearchService.maxConsecutiveErrors, hc]

/-- Witness for C4 (amended) at concrete errors and a tripped breaker. -/
theorem research_circuit_breaker_witness :
    ResearchService.handleSearchError 1 ⟨429, false⟩ = 2
      ∧ ResearchService.handleSearchError 2 ⟨500, true⟩ = 3
      ∧ ResearchService.handleSearchError 0 ⟨503, false⟩ = 1
      ∧ ResearchService.handleSearchError 2 ⟨503, false⟩ = 2
      ∧ ResearchService.handleSearchError 2 ⟨404, false⟩ = 2
      ∧ (ResearchService.runSource (2, [])
          (.ok (some ⟨"fda", "u", "t", "s", 9/10⟩))).1 = 0
      ∧ ResearchService.searchIngredient true 3
          (.ok none, .ok none, .ok none) = ([], 3, 0) := by
  refine ⟨?_, ?_, ?_, ?_, ?_, ?_, ?_⟩
  · exact (research_circuit_breaker 1 ⟨429, false⟩ ⟨"fda", "u", "t", "s", 9/10⟩
      (0, []) (.ok none, .ok none, .ok none)).1 (Or.inl rfl)
  · exact (research_circuit_breaker 2 ⟨500, true⟩ ⟨"fda", "u", "t", "s", 9/10⟩
      (0, []) (.ok none, .ok none, .ok none)).1 (Or.inr rfl)
  · simpa using (research_circuit_breaker 0 ⟨503, false⟩
      ⟨"fda", "u", "t", "s", 9/10⟩ (0, [])
      (.ok none, .ok none, .ok none)).2.1 (by decide) (by decide) (by decide)
  · simpa using (research_circuit_breaker 2 ⟨503, false⟩
      ⟨"fda", "u", "t", "s", 9/10⟩ (0, [])
      (.ok none, .ok none, .ok none)).2.1 (by decide) (by decide) (by decide)
  · exact (research_circuit_breaker 2 ⟨404, false⟩ ⟨"fda", "u", "t", "s", 9/10⟩
      (0, []) (.ok none, .ok none, .ok none)).2.2.1 (by decide) (by decide)
      (by decide)
  · exact (research_circuit_breaker 2 ⟨404, false⟩ ⟨"fda", "u", "t", "s", 9/10⟩
      (2, []) (.ok none, .ok none, .ok none)).2.2.2.1
  · exact (research_circuit_breaker 3 ⟨404, false⟩ ⟨"fda", "u", "t", "s", 9/10⟩
      (2, []) (.ok none, .ok none, .ok none)).2.2.2.2 (by decide)

/-- The amended EWG record invariant: a non-null score is in [1,10] and
implies `found`; a not-found record carries no score. (The converse —
`found` implies a non-null score — is exactly what the counterexample
refutes.) -/
def scoreConsistent (r : EWGService.EWGIngredientData) : Prop :=
  (∀ s, r.score = some s → 1 ≤ s ∧ s ≤ 10 ∧ r.found = true)
    ∧ (r.found = false → r.score = none)

theorem scoreConsistent_parseEWGPage (page : EWGService.FetchedPage)
    (nm url : String) :
    scoreConsistent (EWGService.parseEWGPage page nm url) := by
  cases hm : page.scoreMatch with
  | none => simp [scoreConsistent, EWGService.parseEWGPage, hm]
  | some raw =>
    by_cases hr : 1 ≤ raw ∧ raw ≤ 10
    · constructor
      · intro s hs
        simp [EWGService.parseEWGPage, hm, hr] at hs
        subst hs
        simp [EWGService.parseEWGPage, hm, hr]
      · intro hf
        simp [EWGService.parseEWGPage, hm] at hf
    · constructor
      · intro s hs
        simp [EWGService.parseEWGPage, hm, hr] at hs
      · intro hf
        simp [EWGService.parseEWGPage, hm] at hf

theorem scoreConsistent_parseSearchResults (page : EWGService.SearchPage)
    (nm : String) :
    scoreConsistent (EWGService.parseSearchResults page nm) := by
  cases hl : page.links with
  | nil => simp [scoreConsistent, EWGService.parseSearchResults, hl]
  | cons l ls =>
    cases hm : page.scoreMatch with
    | none => simp [scoreConsistent, EWGService.parseSearchResults, hl, hm]
    | some raw =>
      by_cases hr : 1 ≤ raw ∧ raw ≤ 10
      · constructor
        · intro s hs
          simp [EWGService.parseSearchResults, hl, hm, hr] at hs
          subst hs
          simp [EWGService.parseSearchResults, hl, hm, hr]
        · intro hf
          simp [EWGService.parseSearchResults, hl, hm] at hf
      · constructor
        · intro s hs
          simp [EWGService.parseSearchResults, hl, hm, hr] at hs
        · intro hf
          simp [EWGService.parseSearchResults, hl, hm] at hf

theorem scoreConsistent_fetchDirect (nm url : String)
    (fetched : Option EWGService.FetchedPage) :
    scoreConsistent (EWGService.fetchDirectIngredientPage nm url fetched) := by
  cases fetched with
  | none => simp [scoreConsistent, EWGService.fetchDirectIngredientPage]
  | some page => exact scoreConsistent_parseEWGPage page nm url

theorem scoreConsistent_searchEWGDatabase (nm : String)
    (fetched : Option EWGService.SearchPage) :
    scoreConsistent (EWGService.searchEWGDatabase nm fetched) := by
  cases fetched with
  | none => simp [scoreConsistent, EWGService.searchEWGDatabase]
  | some page =>
    simp only [EWGService.searchEWGDatabase]
    by_cases hf : (EWGService.parseSearchResults page nm).found
    · simpa [hf] using scoreConsistent_parseSearchResults page nm
    · simp [scoreConsistent, hf]

/-- C10 (amended): every record `searchIngredient` returns — whatever the
fetch and regex outcomes, including total failure of every step — is a
well-formed record (the model function is total, matching "never throws")
satisfying: a non-null score lies in [1,10] and implies `found: true`, and
a `found: false` record has a null score. The converse direction of the
original claim, `found == (score != null)`, fails: `found: true` with
`score: null` is reachable (see the counterexample), so the orchestrator's
"EWG data unavailable" test `!found || score === null` is strictly
stronger than `!found`, not equivalent to it. -/
theorem ewg_searchIngredient_score_consistent (name : String)
    (direct : Option EWGService.FetchedPage)
    (search : Option EWGService.SearchPage) :
    scoreConsistent (EWGService.searchIngredient name direct search) := by
  simp only [EWGService.searchIngredient]
  by_cases hd : (EWGService.fetchDirectIngredientPage name
      ("https://www.ewg.org/skindeep/ingredients/"
        ++ EWGService.slugify name ++ "/") direct).found
  · simpa [hd] using scoreConsistent_fetchDirect name _ direct
  · by_cases hs : (EWGService.searchEWGDatabase name search).found
    · simpa [hd, hs] using scoreConsistent_searchEWGDatabase name search
    · simp [scoreConsistent, hd, hs, EWGService.findSimilarIngredients]

/-- Witness for C10 (amended): a page scoring 7 gives a found record with
that score in range; a lookup whose every step failed carries no score. -/
theorem ewg_searchIngredient_score_consistent_witness :
    (1 ≤ 7 ∧ 7 ≤ 10
      ∧ (EWGService.searchIngredient "x" (some ⟨some 7, none, []⟩)
          none).found = true)
    ∧ (EWGService.searchIngredient "y" none none).score = none := by
  constructor
  · exact (ewg_searchIngredient_score_consistent "x" (some ⟨some 7, none, []⟩)
      none).1 7 rfl
  · exact (ewg_searchIngredient_score_consistent "y" none none).2 rfl

/-- C7: when the analysis store holds an entry for the normalized
ingredient name whose age is within the refresh window (strictly: its age
in days does not exceed `refreshDays`), `analyzeIngredient` returns the
stored record itself — hence with its version untouched — with zero
external calls (no score lookup, no citation search, no classifier call)
and no cache write: the store comes back unchanged. -/
theorem aiVetting_cacheHit_returns_stored
    (db : IngredientAnalysisService.DB) (refreshDays : ℕ) (now last : ℚ)
    (name : String) (ewg : EWGService.EWGIngredientData)
    (research : Option (List ResearchService.ResearchResult))
    (ai : Option (Except String ProviderResult)) (a : IngredientAnalysis)
    (hget : IngredientAnalysisService.getAnalysis db name = some a)
    (hlast : a.lastAnalyzedAt = some last)
    (hfresh : (now - last) / (1000 * 60 * 60 * 24) ≤ (refreshDays : ℚ)) :
    AIVettingService.analyzeIngredient (some (db, refreshDays)) now name ewg
      research ai = (a, ⟨0, 0, 0, 0⟩, some db) := by
  have hsr : IngredientAnalysisService.shouldRefreshAnalysis refreshDays now
      (some a) = false := by
    simp [IngredientAnalysisService.shouldRefreshAnalysis, hlast,
      Option.orElse]
    exact hfresh
  simp only [AIVettingService.analyzeIngredient, hget, hsr]
  simp

/-- Witness for C7: a record analyzed at time 5 ms, re-requested (with
different casing) one day later under a 30-day window, comes back verbatim
with all-zero effect counts and an unchanged store. -/
theorem aiVetting_cacheHit_returns_stored_witness :
    AIVettingService.analyzeIngredient
        (some ([⟨"water", "safe", "r", "d", "e", "u", none, none, none,
          none, 9/10, 3, 0, 5, 5⟩], 30)) (5 + 86400000) "Water"
        ⟨"Water", none, none, "u", [], false, none⟩ none none
      = (IngredientAnalysisService.mapRowToAnalysis
          ⟨"water", "safe", "r", "d", "e", "u", none, none, none, none,
            9/10, 3, 0, 5, 5⟩, ⟨0, 0, 0, 0⟩,
          some [⟨"water", "safe", "r", "d", "e", "u", none, none, none,
            none, 9/10, 3, 0, 5, 5⟩]) := by
  exact aiVetting_cacheHit_returns_stored
    [⟨"water", "safe", "r", "d", "e", "u", none, none, none, none,
      9/10, 3, 0, 5, 5⟩] 30 (5 + 86400000) 5 "Water"
    ⟨"Water", none, none, "u", [], false, none⟩ none none
    (IngredientAnalysisService.mapRowToAnalysis
      ⟨"water", "safe", "r", "d", "e", "u", none, none, none, none,
        9/10, 3, 0, 5, 5⟩) rfl rfl (by norm_num)

theorem find?_map_pred {α : Type} (p : α → Bool) (f : α → α)
    (hp : ∀ r, p (f r) = p r) :
    ∀ l : List α, (l.map f).find? p = (l.find? p).map f := by
  intro l
  induction l with
  | nil => rfl
  | cons r rest ih =>
    by_cases h : p r
    · simp [List.find?_cons, hp, h]
    · simp only [List.map_cons, List.find?_cons, hp r,
        Bool.eq_false_iff.mpr h, ih]

/-- C8: `upsertAnalysis` inserts a brand-new row with `analysis_version` 1
(and all three timestamps at the current time) when no row exists for the
normalized name; when a row exists it rewrites the analysis fields,
increments `analysis_version` by exactly 1, sets `last_analyzed_at` (and
`updated_at`, via the table trigger) to the current time, and — as the
record-update form shows — leaves the original `created_at` untouched. -/
theorem upsertAnalysis_version_semantics
    (db : IngredientAnalysisService.DB) (name : String)
    (a : IngredientAnalysis) (now : ℚ) :
    (IngredientAnalysisService.getRow db
        (IngredientAnalysisService.normalizeIngredientName name) = none →
      IngredientAnalysisService.upsertAnalysis db name a now
        = db ++ [⟨IngredientAnalysisService.normalizeIngredientName name,
            a.status, a.rationale, a.description, a.edgeCases, a.sourceUrl,
            a.ewgScore, none, a.researchSources, a.suggestedMatches,
            a.confidence, 1, now, now, now⟩])
    ∧ (∀ old, IngredientAnalysisService.getRow db
          (IngredientAnalysisService.normalizeIngredientName name)
          = some old →
        IngredientAnalysisService.getRow
            (IngredientAnalysisService.upsertAnalysis db name a now)
            (IngredientAnalysisService.normalizeIngredientName name)
          = some { old with
              status := a.status, rationale := a.rationale,
              description := a.description, edge_cases := a.edgeCases,
              source_url := a.sourceUrl, ewg_score := a.ewgScore,
              ewg_data_availability := none,
              research_sources := a.researchSources,
              suggested_matches := a.suggestedMatches,
              confidence := a.confidence,
              analysis_version := old.analysis_version + 1,
              updated_at := now, last_analyzed_at := now }) := by
  constructor
  · intro hnone
    simp [IngredientAnalysisService.upsertAnalysis,
      IngredientAnalysisService.getAnalysis, hnone,
      IngredientAnalysisService.saveAnalysis]
  · intro old hsome
    have hsome' : List.find?
        (fun r => r.ingredient_name
          == IngredientAnalysisService.normalizeIngredientName name) db
        = some old := hsome
    have hpold : (old.ingredient_name
        == IngredientAnalysisService.normalizeIngredientName name)
        = true := by
      exact List.find?_some
        (p := fun (r : IngredientAnalysisService.StoredRow) =>
          r.ingredient_name
            == IngredientAnalysisService.normalizeIngredientName name)
        hsome'
    simp only [IngredientAnalysisService.upsertAnalysis,
      IngredientAnalysisService.getAnalysis,
      IngredientAnalysisService.getRow, hsome']
    simp only [Option.map_some', Option.isSome_some, if_true]
    simp only [IngredientAnalysisService.updateAnalysis,
      IngredientAnalysisService.getRow, hsome']
    rw [find?_map_pred]
    · rw [hsome']
      simp only [Option.map_some']
      congr 1
      rw [if_pos hpold]
    · intro r
      by_cases h : r.ingredient_name
          == IngredientAnalysisService.normalizeIngredientName name
      · simp [h]
      · simp [Bool.eq_false_iff.mpr h, h]

/-- Witness for C8: inserting "Water" into an empty store creates version
1; upserting over a version-3 row bumps it to 4, stamps time 7, and keeps
the original `created_at` of 1. -/
theorem upsertAnalysis_version_semantics_witness :
    IngredientAnalysisService.upsertAnalysis [] "Water"
        ⟨"Water", "safe", "r", "d", "e", "u", 9/10, none, none, none,
          none, none⟩ 7
      = [⟨"water", "safe", "r", "d", "e", "u", none, none, none, none,
          9/10, 1, 7, 7, 7⟩]
    ∧ IngredientAnalysisService.getRow
        (IngredientAnalysisService.upsertAnalysis
          [⟨"water", "caution", "r0", "d0", "e0", "u0", none, none, none,
            none, 1/2, 3, 1, 2, 2⟩] "Water"
          ⟨"Water", "safe", "r", "d", "e", "u", 9/10, none, none, none,
            none, none⟩ 7) "water"
      = some ⟨"water", "safe", "r", "d", "e", "u", none, none, none, none,
          9/10, 4, 1, 7, 7⟩ := by
  constructor
  · exact (upsertAnalysis_version_semantics [] "Water"
      ⟨"Water", "safe", "r", "d", "e", "u", 9/10, none, none, none, none,
        none⟩ 7).1 rfl
  · exact (upsertAnalysis_version_semantics
      [⟨"water", "caution", "r0", "d0", "e0", "u0", none, none, none, none,
        1/2, 3, 1, 2, 2⟩] "Water"
      ⟨"Water", "safe", "r", "d", "e", "u", 9/10, none, none, none, none,
        none⟩ 7).2
      ⟨"water", "caution", "r0", "d0", "e0", "u0", none, none, none, none,
        1/2, 3, 1, 2, 2⟩ rfl
